import Mathlib

/-!
Verification development for the P-H flash thermodynamics calculator.

The repository ships the public headers (ph_error.h, ph_defs.h, ph_eos.h,
ph_vle.h, ph_flash.h, ph_utils.h, ph_anderson.h, ph_enthalpy.h); the
corresponding .c implementation files are not part of the source tree.
Declarations, data structures, enumerations and numeric constants are
therefore embedded directly from the headers, while the behaviour of the
missing function bodies is modelled from the specification document, as
flagged in each doc string.  Real numbers of the C code (`double`) are
modelled as rationals, so every definition is executable and decidable.
-/

unseal Rat.add Rat.mul Rat.sub Rat.inv Rat.ofScientific

/-- PH_OK success status from ph_error.h (value 0). -/
def PH_OK : Int := 0

/-- Input validation error codes from ph_error.h. -/
def PH_ERROR_INPUT_NULL : Int := -101

/-- Invalid composition input error from ph_error.h. -/
def PH_ERROR_INPUT_INVALID_COMPOSITION : Int := -102

/-- Invalid pressure input error from ph_error.h. -/
def PH_ERROR_INPUT_INVALID_PRESSURE : Int := -103

/-- Invalid temperature input error from ph_error.h. -/
def PH_ERROR_INPUT_INVALID_TEMPERATURE : Int := -104

/-- Invalid enthalpy input error from ph_error.h. -/
def PH_ERROR_INPUT_INVALID_ENTHALPY : Int := -105

/-- Out-of-range input error from ph_error.h. -/
def PH_ERROR_INPUT_OUT_OF_RANGE : Int := -106

/-- Inconsistent input error from ph_error.h. -/
def PH_ERROR_INPUT_INCONSISTENT : Int := -107

/-- Numerical overflow error from ph_error.h. -/
def PH_ERROR_NUMERICAL_OVERFLOW : Int := -201

/-- Numerical underflow error from ph_error.h. -/
def PH_ERROR_NUMERICAL_UNDERFLOW : Int := -202

/-- Division-by-zero error from ph_error.h. -/
def PH_ERROR_NUMERICAL_DIVISION_BY_ZERO : Int := -203

/-- Invalid numerical result error from ph_error.h. -/
def PH_ERROR_NUMERICAL_INVALID_RESULT : Int := -204

/-- Precision loss error from ph_error.h. -/
def PH_ERROR_NUMERICAL_PRECISION_LOSS : Int := -205

/-- Singular matrix error from ph_error.h. -/
def PH_ERROR_NUMERICAL_MATRIX_SINGULAR : Int := -206

/-- Maximum iteration count exceeded error from ph_error.h. -/
def PH_ERROR_CONVERGENCE_MAX_ITERATIONS : Int := -301

/-- Slow convergence error from ph_error.h. -/
def PH_ERROR_CONVERGENCE_SLOW : Int := -302

/-- Oscillating solution error from ph_error.h. -/
def PH_ERROR_CONVERGENCE_OSCILLATION : Int := -303

/-- Diverging solution error from ph_error.h. -/
def PH_ERROR_CONVERGENCE_DIVERGENCE : Int := -304

/-- Stagnating solution error from ph_error.h. -/
def PH_ERROR_CONVERGENCE_STAGNATION : Int := -305

/-- Tolerance-miss (warning level) code from ph_error.h. -/
def PH_ERROR_CONVERGENCE_TOLERANCE : Int := -306

/-- Negative composition error from ph_error.h. -/
def PH_ERROR_PHYSICAL_NEGATIVE_COMPOSITION : Int := -401

/-- Invalid phase state error from ph_error.h. -/
def PH_ERROR_PHYSICAL_INVALID_PHASE : Int := -402

/-- Unstable solution error from ph_error.h. -/
def PH_ERROR_PHYSICAL_UNSTABLE_SOLUTION : Int := -403

/-- Impossible physical state error from ph_error.h. -/
def PH_ERROR_PHYSICAL_IMPOSSIBLE_STATE : Int := -404

/-- Critical region (warning level) code from ph_error.h. -/
def PH_ERROR_PHYSICAL_CRITICAL_REGION : Int := -405

/-- Fugacity balance failure error from ph_error.h. -/
def PH_ERROR_PHYSICAL_FUGACITY_BALANCE : Int := -406

/-- Memory allocation failure from ph_error.h. -/
def PH_ERROR_MEMORY_ALLOCATION : Int := -501

/-- Memory deallocation failure from ph_error.h. -/
def PH_ERROR_MEMORY_DEALLOCATION : Int := -502

/-- Memory corruption error from ph_error.h. -/
def PH_ERROR_MEMORY_CORRUPTION : Int := -503

/-- Memory leak error from ph_error.h. -/
def PH_ERROR_MEMORY_LEAK : Int := -504

/-- Memory access violation error from ph_error.h. -/
def PH_ERROR_MEMORY_ACCESS_VIOLATION : Int := -505

/-- TPD stability analysis failure from ph_error.h. -/
def PH_ERROR_ALGORITHM_TPD_FAILURE : Int := -601

/-- Rachford-Rice solver failure from ph_error.h. -/
def PH_ERROR_ALGORITHM_RACHFORD_RICE : Int := -602

/-- Anderson acceleration failure from ph_error.h. -/
def PH_ERROR_ALGORITHM_ANDERSON_FAILURE : Int := -603

/-- Line search failure from ph_error.h. -/
def PH_ERROR_ALGORITHM_LINE_SEARCH_FAILURE : Int := -604

/-- Newton method failure from ph_error.h. -/
def PH_ERROR_ALGORITHM_NEWTON_FAILURE : Int := -605

/-- Equation-of-state solver failure from ph_error.h. -/
def PH_ERROR_ALGORITHM_EOS_FAILURE : Int := -606

/-- Invalid configuration error from ph_error.h. -/
def PH_ERROR_CONFIG_INVALID : Int := -701

/-- Missing configuration error from ph_error.h. -/
def PH_ERROR_CONFIG_MISSING : Int := -702

/-- File read/write error from ph_error.h. -/
def PH_ERROR_FILE_IO : Int := -703

/-- System resource error from ph_error.h. -/
def PH_ERROR_SYSTEM_RESOURCE : Int := -704

/-- Feature-not-implemented error from ph_error.h. -/
def PH_ERROR_NOT_IMPLEMENTED : Int := -705

/-- Version incompatibility error from ph_error.h. -/
def PH_ERROR_VERSION_INCOMPATIBLE : Int := -706

/-- Unknown error from ph_error.h. -/
def PH_ERROR_UNKNOWN : Int := -901

/-- Internal error from ph_error.h. -/
def PH_ERROR_INTERNAL : Int := -902

/-- Fatal error from ph_error.h. -/
def PH_ERROR_FATAL : Int := -903

/-- Backward-compatibility alias from ph_error.h:
PH_ERROR_CONVERGENCE = PH_ERROR_CONVERGENCE_MAX_ITERATIONS. -/
def PH_ERROR_CONVERGENCE : Int := PH_ERROR_CONVERGENCE_MAX_ITERATIONS

/-- Backward-compatibility alias from ph_error.h:
PH_ERROR_INPUT_VALIDATION = PH_ERROR_INPUT_NULL. -/
def PH_ERROR_INPUT_VALIDATION : Int := PH_ERROR_INPUT_NULL

/-- Backward-compatibility alias from ph_error.h:
PH_ERROR_NUMERICAL = PH_ERROR_NUMERICAL_INVALID_RESULT. -/
def PH_ERROR_NUMERICAL : Int := PH_ERROR_NUMERICAL_INVALID_RESULT

/-- Backward-compatibility alias from ph_error.h:
PH_ERROR_UNSTABLE = PH_ERROR_PHYSICAL_UNSTABLE_SOLUTION. -/
def PH_ERROR_UNSTABLE : Int := PH_ERROR_PHYSICAL_UNSTABLE_SOLUTION

/-- Backward-compatibility alias from ph_error.h:
PH_ERROR_SOLUTION_VALIDATION = PH_ERROR_PHYSICAL_INVALID_PHASE. -/
def PH_ERROR_SOLUTION_VALIDATION : Int := PH_ERROR_PHYSICAL_INVALID_PHASE

/-- Backward-compatibility alias from ph_error.h:
PH_ERROR_CALCULATION = PH_ERROR_NUMERICAL_INVALID_RESULT. -/
def PH_ERROR_CALCULATION : Int := PH_ERROR_NUMERICAL_INVALID_RESULT

/-- All distinct members of the PHErrorCode enumeration in ph_error.h,
in declaration order (the six backward-compatibility aliases repeat
earlier values and are appended at the end). -/
def phErrorCodeValues : List Int :=
  [PH_OK,
   PH_ERROR_INPUT_NULL, PH_ERROR_INPUT_INVALID_COMPOSITION,
   PH_ERROR_INPUT_INVALID_PRESSURE, PH_ERROR_INPUT_INVALID_TEMPERATURE,
   PH_ERROR_INPUT_INVALID_ENTHALPY, PH_ERROR_INPUT_OUT_OF_RANGE,
   PH_ERROR_INPUT_INCONSISTENT,
   PH_ERROR_NUMERICAL_OVERFLOW, PH_ERROR_NUMERICAL_UNDERFLOW,
   PH_ERROR_NUMERICAL_DIVISION_BY_ZERO, PH_ERROR_NUMERICAL_INVALID_RESULT,
   PH_ERROR_NUMERICAL_PRECISION_LOSS, PH_ERROR_NUMERICAL_MATRIX_SINGULAR,
   PH_ERROR_CONVERGENCE_MAX_ITERATIONS, PH_ERROR_CONVERGENCE_SLOW,
   PH_ERROR_CONVERGENCE_OSCILLATION, PH_ERROR_CONVERGENCE_DIVERGENCE,
   PH_ERROR_CONVERGENCE_STAGNATION, PH_ERROR_CONVERGENCE_TOLERANCE,
   PH_ERROR_PHYSICAL_NEGATIVE_COMPOSITION, PH_ERROR_PHYSICAL_INVALID_PHASE,
   PH_ERROR_PHYSICAL_UNSTABLE_SOLUTION, PH_ERROR_PHYSICAL_IMPOSSIBLE_STATE,
   PH_ERROR_PHYSICAL_CRITICAL_REGION, PH_ERROR_PHYSICAL_FUGACITY_BALANCE,
   PH_ERROR_MEMORY_ALLOCATION, PH_ERROR_MEMORY_DEALLOCATION,
   PH_ERROR_MEMORY_CORRUPTION, PH_ERROR_MEMORY_LEAK,
   PH_ERROR_MEMORY_ACCESS_VIOLATION,
   PH_ERROR_ALGORITHM_TPD_FAILURE, PH_ERROR_ALGORITHM_RACHFORD_RICE,
   PH_ERROR_ALGORITHM_ANDERSON_FAILURE, PH_ERROR_ALGORITHM_LINE_SEARCH_FAILURE,
   PH_ERROR_ALGORITHM_NEWTON_FAILURE, PH_ERROR_ALGORITHM_EOS_FAILURE,
   PH_ERROR_CONFIG_INVALID, PH_ERROR_CONFIG_MISSING, PH_ERROR_FILE_IO,
   PH_ERROR_SYSTEM_RESOURCE, PH_ERROR_NOT_IMPLEMENTED,
   PH_ERROR_VERSION_INCOMPATIBLE,
   PH_ERROR_UNKNOWN, PH_ERROR_INTERNAL, PH_ERROR_FATAL,
   PH_ERROR_CONVERGENCE, PH_ERROR_INPUT_VALIDATION, PH_ERROR_NUMERICAL,
   PH_ERROR_UNSTABLE, PH_ERROR_SOLUTION_VALIDATION, PH_ERROR_CALCULATION]

/-- Maximum iteration count of the outer temperature loop (ph_defs.h). -/
def MAX_ITER_OUTER : Nat := 50

/-- Maximum iteration count of the VLE loop (ph_defs.h). -/
def MAX_ITER_VLE : Nat := 100

/-- Maximum iteration count of the Rachford-Rice solver (ph_defs.h). -/
def MAX_ITER_RR : Nat := 30

/-- Maximum iteration count of the TPD analysis (ph_defs.h). -/
def MAX_ITER_TPD : Nat := 20

/-- Composition sum tolerance TOL_COMP_SUM = 1.0e-8 (ph_defs.h). -/
def TOL_COMP_SUM : ℚ := 1 / 10 ^ 8

/-- Rachford-Rice residual tolerance TOL_RR = 1.0e-10 (ph_defs.h). -/
def TOL_RR : ℚ := 1 / 10 ^ 10

/-- K-value tolerance TOL_K_VALUE = 1.0e-6 (ph_defs.h). -/
def TOL_K_VALUE : ℚ := 1 / 10 ^ 6

/-- Enthalpy balance tolerance TOL_ENTHALPY = 5.0 J/mol (ph_defs.h). -/
def TOL_ENTHALPY : ℚ := 5

/-- PhaseType enumeration from ph_defs.h. -/
inductive PhaseType where
  | PHASE_LIQUID : PhaseType
  | PHASE_VAPOR : PhaseType
  | PHASE_UNKNOWN : PhaseType
deriving DecidableEq

/-- OperatingCondition enumeration from ph_defs.h. -/
inductive OperatingCondition where
  | CONDITION_STANDARD : OperatingCondition
  | CONDITION_DIFFICULT : OperatingCondition
  | CONDITION_EXTREME : OperatingCondition
deriving DecidableEq

/-- StateProperties block from ph_defs.h; length-NC (= 5) double arrays become
functions on Fin 5, doubles become rationals, the status is the PHErrorCode
integer. -/
structure StateProperties where
  T : ℚ
  P : ℚ
  beta : ℚ
  z : Fin 5 → ℚ
  x : Fin 5 → ℚ
  y : Fin 5 → ℚ
  K : Fin 5 → ℚ
  H_spec : ℚ
  H_calc : ℚ
  H_L : ℚ
  H_V : ℚ
  Z_L : ℚ
  Z_V : ℚ
  phi_L : Fin 5 → ℚ
  phi_V : Fin 5 → ℚ
  iterations : Nat
  status : Int

/-- FlashOptions structure from ph_defs.h (C ints stay integers, doubles
become rationals). -/
structure FlashOptions where
  kij : Fin 5 → Fin 5 → ℚ
  use_quantum_h2 : Int
  bip_source : Int
  eos_type : Int
  use_anderson : Int
  use_line_search : Int
  verbose : Int
  damping : ℚ
  tol_factor : ℚ
  use_adaptive_tolerance : Int
  condition_type : OperatingCondition
  custom_enthalpy_tol : ℚ
  use_adaptive_derivative : Int
  derivative_perturbation : ℚ
  use_analytical_backup : Int
  max_reasonable_dhdt : ℚ

/-- Sum of a length-5 component vector, as ph_sum in ph_utils.h computes
over the NC = 5 entries. -/
def ph_sum5 (v : Fin 5 → ℚ) : ℚ := v 0 + v 1 + v 2 + v 3 + v 4

/-- Conjunction of a boolean predicate over the 5 component indices. -/
def all5 (p : Fin 5 → Bool) : Bool := p 0 && p 1 && p 2 && p 3 && p 4

/-- ph_clip from ph_utils.h: clamp value into the closed interval. -/
def ph_clip (value lo hi : ℚ) : ℚ :=
  if value < lo then lo else if hi < value then hi else value

/-- Largest entry of a length-5 vector. -/
def max5 (v : Fin 5 → ℚ) : ℚ :=
  max (max (max (v 0) (v 1)) (max (v 2) (v 3))) (v 4)

/-- Smallest entry of a length-5 vector. -/
def min5 (v : Fin 5 → ℚ) : ℚ :=
  min (min (min (v 0) (v 1)) (min (v 2) (v 3))) (v 4)

/-- ph_max_abs from ph_utils.h, specialised to the 5-vector case: the
infinity norm of the vector. -/
def ph_max_abs5 (v : Fin 5 → ℚ) : ℚ := max5 (fun i => |v i|)

/-- Modelled from the spec: tolerance used by `validate_inputs` for the feed
sum check (spec section 6 demands the sum of z within 1e-6 of 1; the constant
itself does not appear in ph_defs.h because ph_flash.c is missing). -/
def TOL_Z_INPUT : ℚ := 1 / 10 ^ 6

/-- Modelled from the spec: ph_flash_validate_inputs (ph_flash.c is missing;
only the prototype survives in ph_flash.h).  Spec section 6: accept exactly
when the sum of z is within 1e-6 of 1, all z_i are nonnegative, P is strictly
positive, and H_spec is finite.  A non-finite double is modelled as
Option.none.  Each violation yields the matching input-validation code of
ph_error.h. -/
def ph_flash_validate_inputs (z : Fin 5 → ℚ) (P : ℚ) (H_spec : Option ℚ) : Int :=
  if all5 (fun i => decide (0 ≤ z i)) = true then
    if |ph_sum5 z - 1| ≤ TOL_Z_INPUT then
      if 0 < P then
        if H_spec.isSome = true then PH_OK
        else PH_ERROR_INPUT_INVALID_ENTHALPY
      else PH_ERROR_INPUT_INVALID_PRESSURE
    else PH_ERROR_INPUT_INVALID_COMPOSITION
  else PH_ERROR_INPUT_INVALID_COMPOSITION

/-- Modelled from the spec: the mole-balance checks of
ph_flash_validate_solution (ph_flash.c is missing).  Spec section 8
invariants for an accepted result: the liquid and vapour compositions each
sum to 1 within 1e-8, each feed component satisfies the lever rule
z_i = beta*y_i + (1-beta)*x_i within 1e-8, and beta lies in [0, 1]. -/
def moleBalanceOK (s : StateProperties) : Bool :=
  decide (|ph_sum5 s.x - 1| ≤ TOL_COMP_SUM) &&
  decide (|ph_sum5 s.y - 1| ≤ TOL_COMP_SUM) &&
  all5 (fun i => decide (|s.z i - (s.beta * s.y i + (1 - s.beta) * s.x i)| ≤ TOL_COMP_SUM)) &&
  decide (0 ≤ s.beta) &&
  decide (s.beta ≤ 1)

/-- Modelled from the spec: ph_flash_validate_solution (prototype in
ph_flash.h line 129, body missing).  Returns PH_OK when the mole-balance
invariants hold and the solution-validation code otherwise. -/
def ph_flash_validate_solution (s : StateProperties) : Int :=
  if moleBalanceOK s = true then PH_OK else PH_ERROR_SOLUTION_VALIDATION

/-- Zero component vector. -/
def zeroComp : Fin 5 → ℚ := fun _ => 0

/-- Modelled from the spec: the StateProperties record returned when the
pipeline aborts before producing a physical result; it only carries the
status code (spec section 7: error results are to be discarded). -/
def mkErrorState (code : Int) : StateProperties :=
  ⟨0, 0, 0, zeroComp, zeroComp, zeroComp, zeroComp, 0, 0, 0, 0, 0, 0,
   zeroComp, zeroComp, 0, code⟩

/-- Modelled from the spec: ph_vle_normalize_composition (prototype in
ph_vle.h line 64, body missing) rescales a composition so that it sums
to one. -/
def ph_vle_normalize_composition (c : Fin 5 → ℚ) : Fin 5 → ℚ :=
  fun i => c i / ph_sum5 c

/-- Accepted statuses per spec section 6: PH_OK or one of the two soft
warning codes ConvergenceTolerance and PhysicalCriticalRegion. -/
def isAcceptedStatus (c : Int) : Bool :=
  decide (c = PH_OK) || decide (c = PH_ERROR_CONVERGENCE_TOLERANCE) ||
  decide (c = PH_ERROR_PHYSICAL_CRITICAL_REGION)

/-- Modelled from the spec: ph_flash_calculate (prototype in ph_flash.h
line 71, body missing).  Spec sections 6 and 9: validate the inputs and
produce no result on violation; reject eos_type different from 0 with
NotImplemented; otherwise run the nested solver - abstracted here as the
argument `core`, invoked on the normalised feed - and validate the produced
solution before returning it. -/
def ph_flash_calculate
    (core : (Fin 5 → ℚ) → ℚ → ℚ → FlashOptions → StateProperties)
    (z : Fin 5 → ℚ) (P : ℚ) (H_spec : Option ℚ)
    (options : FlashOptions) : StateProperties :=
  if ph_flash_validate_inputs z P H_spec = PH_OK then
    if options.eos_type = 0 then
      if ph_flash_validate_solution
          (core (ph_vle_normalize_composition z) P (H_spec.getD 0) options) = PH_OK then
        core (ph_vle_normalize_composition z) P (H_spec.getD 0) options
      else mkErrorState PH_ERROR_SOLUTION_VALIDATION
    else mkErrorState PH_ERROR_NOT_IMPLEMENTED
  else mkErrorState (ph_flash_validate_inputs z P H_spec)

/-- Concrete feed used by the witnesses: equimolar five-component mixture. -/
def zFeed0 : Fin 5 → ℚ := fun _ => 1 / 5

/-- Concrete converged state used by the witnesses: a 50/50 split with
identical equimolar phases, reported with status PH_OK. -/
def goodState : StateProperties :=
  ⟨300, 101325, 1 / 2, zFeed0, zFeed0, zFeed0, fun _ => 1, 0, 0, 0, 0,
   1 / 50, 9 / 10, fun _ => 1, fun _ => 1, 3, PH_OK⟩

/-- Concrete abstract core used by the witnesses: ignores its arguments and
reports the converged state `goodState`. -/
def core0 : (Fin 5 → ℚ) → ℚ → ℚ → FlashOptions → StateProperties :=
  fun _ _ _ _ => goodState

/-- Concrete option block used by the witnesses; mirrors the documented
defaults of spec section 6 (Anderson on, line search on, damping 0.5, BIP
recommended, quantum H2 on, adaptive tolerance on) with eos_type 0. -/
def opts0 : FlashOptions :=
  ⟨fun _ _ => 0, 1, 0, 0, 1, 1, 0, 1 / 2, 1, 1,
   OperatingCondition.CONDITION_STANDARD, 0, 0, 0, 0, 10 ^ 5⟩

/-- Concrete option block requesting the unimplemented PR-CPA model
(eos_type = 1). -/
def opts1 : FlashOptions :=
  ⟨fun _ _ => 0, 1, 0, 1, 1, 1, 0, 1 / 2, 1, 1,
   OperatingCondition.CONDITION_STANDARD, 0, 0, 0, 0, 10 ^ 5⟩

/-- Largest element of a root list (none on the empty list). -/
def qmax : List ℚ → Option ℚ
  | [] => none
  | x :: xs => some (xs.foldl max x)

/-- Smallest element of a root list (none on the empty list). -/
def qmin : List ℚ → Option ℚ
  | [] => none
  | x :: xs => some (xs.foldl min x)

/-- Residual of the monic PR compressibility cubic
Z^3 - (1-B) Z^2 + (A - 3B^2 - 2B) Z - (AB - B^2 - B^3) from spec
section 4.1 (the equation solved by ph_eos_solve_cubic_eq of ph_eos.h). -/
def cubicResidual (A B Z : ℚ) : ℚ :=
  Z ^ 3 - (1 - B) * Z ^ 2 + (A - 3 * B ^ 2 - 2 * B) * Z - (A * B - B ^ 2 - B ^ 3)

/-- Modelled from the spec: the root-selection step of ph_eos_solve_cubic_eq
(prototype in ph_eos.h line 88; ph_eos.c is missing).  The analytic Cardano
step is abstracted as the list `roots` of real roots it produced; spec
section 4.1 then selects: fail with NumericalInvalidResult when no root
exceeds B; use a single real root regardless of phase; otherwise the largest
root at least B for the vapour phase and the smallest root above B for the
liquid phase (the PHASE_UNKNOWN value of ph_defs.h has no documented rule
and follows the vapour branch). -/
def ph_eos_solve_cubic_eq (B : ℚ) (phase : PhaseType) (roots : List ℚ) : Except Int ℚ :=
  if roots.any (fun r => decide (B < r)) = true then
    match roots, phase with
    | [r], _ => Except.ok r
    | _, PhaseType.PHASE_LIQUID =>
      match qmin (roots.filter (fun r => decide (B < r))) with
      | some m => Except.ok m
      | none => Except.error PH_ERROR_NUMERICAL_INVALID_RESULT
    | _, _ =>
      match qmax (roots.filter (fun r => decide (B ≤ r))) with
      | some m => Except.ok m
      | none => Except.error PH_ERROR_NUMERICAL_INVALID_RESULT
  else Except.error PH_ERROR_NUMERICAL_INVALID_RESULT

/-- Modelled from the spec: Rachford-Rice bracket-width stopping tolerance
1e-12 of spec section 4.3 (not among the ph_defs.h constants). -/
def TOL_RR_BRACKET : ℚ := 1 / 10 ^ 12

/-- Rachford-Rice function g(beta) = sum z_i (K_i - 1) / (1 + beta (K_i - 1))
from spec section 4.3. -/
def rrG (z K : Fin 5 → ℚ) (beta : ℚ) : ℚ :=
  ph_sum5 (fun i => z i * (K i - 1) / (1 + beta * (K i - 1)))

/-- Analytic derivative of the Rachford-Rice function, used by the Newton
step of spec section 4.3. -/
def rrGprime (z K : Fin 5 → ℚ) (beta : ℚ) : ℚ :=
  - ph_sum5 (fun i => z i * (K i - 1) ^ 2 / (1 + beta * (K i - 1)) ^ 2)

/-- Internal state of the Rachford-Rice iteration: current beta, bracket,
and iteration count. -/
structure RRState where
  beta : ℚ
  lo : ℚ
  hi : ℚ
  iters : Nat

/-- Modelled from the spec: Rachford-Rice stopping test of spec section 4.3,
|g(beta)| < 1e-10 or bracket width < 1e-12. -/
def rrConverged (z K : Fin 5 → ℚ) (s : RRState) : Bool :=
  decide (|rrG z K s.beta| < TOL_RR) || decide (s.hi - s.lo < TOL_RR_BRACKET)

/-- Modelled from the spec: one Rachford-Rice update of spec section 4.3 -
refine the bracket using the sign of g (g is decreasing), bisect during the
first three iterations, then take the Newton step when it stays inside the
bracket and bisect otherwise. -/
def rrNext (z K : Fin 5 → ℚ) (s : RRState) : RRState :=
  let gb := rrG z K s.beta
  let lo := if 0 < gb then s.beta else s.lo
  let hi := if 0 < gb then s.hi else s.beta
  if s.iters < 3 then ⟨(lo + hi) / 2, lo, hi, s.iters + 1⟩
  else
    let bn := s.beta - gb / rrGprime z K s.beta
    if lo < bn ∧ bn < hi then ⟨bn, lo, hi, s.iters + 1⟩
    else ⟨(lo + hi) / 2, lo, hi, s.iters + 1⟩

/-- Modelled from the spec: the fuelled Rachford-Rice iteration of spec
section 4.3 - stop with PH_OK as soon as the stopping test holds, and on
exhausting the iteration budget return the last beta with the
RachfordRice algorithm status. -/
def rrLoop (z K : Fin 5 → ℚ) : Nat → RRState → Int × RRState
  | 0, s =>
    if rrConverged z K s = true then (PH_OK, s)
    else (PH_ERROR_ALGORITHM_RACHFORD_RICE, s)
  | fuel + 1, s =>
    if rrConverged z K s = true then (PH_OK, s)
    else rrLoop z K fuel (rrNext z K s)

/-- Result of the Rachford-Rice solver: status, the beta handed back to the
VLE loop, and the final internal state (whose beta may lie outside [0,1]). -/
structure RRResult where
  status : Int
  beta : ℚ
  final : RRState

/-- Modelled from the spec: ph_vle_solve_rachford_rice (prototype in
ph_vle.h line 45; ph_vle.c is missing).  Spec section 4.3: start from the
negative-flash bracket (1/(1-Kmax), 1/(1-Kmin)) when it extends beyond
[0,1], run at most MAX_ITER_RR = 30 iterations, and clip the final beta
into [0,1] before handing it back to the VLE loop. -/
def ph_vle_solve_rachford_rice (z K : Fin 5 → ℚ) : RRResult :=
  let lo := if 1 < max5 K then 1 / (1 - max5 K) else 0
  let hi := if min5 K < 1 then 1 / (1 - min5 K) else 1
  let r := rrLoop z K MAX_ITER_RR ⟨(lo + hi) / 2, lo, hi, 0⟩
  ⟨r.1, ph_clip r.2.beta 0 1, r.2⟩

/-- Modelled from the spec: the VLE loop tolerance on the infinity-norm
change of ln K, 1e-7 (spec section 4.5 step 6; ph_vle.c is missing, and
ph_defs.h only records the relative K tolerance TOL_K_VALUE = 1e-6, so the
spec value is used). -/
def TOL_VLE_LNK : ℚ := 1 / 10 ^ 7

/-- One iterate of the isothermal VLE successive-substitution loop: the
ln K vector together with the beta, x, y it produced (spec section 4.5). -/
structure VLEIter where
  lnK : Fin 5 → ℚ
  beta : ℚ
  x : Fin 5 → ℚ
  y : Fin 5 → ℚ

/-- Residual of a VLE step: the infinity norm of the change in ln K. -/
def vleResidual (prev cur : VLEIter) : ℚ :=
  ph_max_abs5 (fun i => cur.lnK i - prev.lnK i)

/-- Modelled from the spec: the VLE convergence test of spec section 4.5
step 6 - infinity-norm change of ln K below 1e-7, |sum y - sum x| below
1e-8, and beta within [-eps, 1+eps]. -/
def vleConverged (eps : ℚ) (prev cur : VLEIter) : Bool :=
  decide (vleResidual prev cur < TOL_VLE_LNK) &&
  decide (|ph_sum5 cur.y - ph_sum5 cur.x| < TOL_COMP_SUM) &&
  decide (-eps ≤ cur.beta) && decide (cur.beta ≤ 1 + eps)

/-- Modelled from the spec: the fuelled VLE iteration (spec section 4.5) -
apply the fixed-point map `step` (one successive-substitution sweep with
Anderson mixing and damping, abstracted), stop with PH_OK when the
convergence test holds for the produced iterate, and report
ConvergenceMaxIterations on fuel exhaustion.  The returned Nat counts the
step applications performed. -/
def vleLoop (step : VLEIter → VLEIter) (eps : ℚ) : Nat → VLEIter → Int × VLEIter × Nat
  | 0, cur =>
    if vleConverged eps cur (step cur) = true then (PH_OK, step cur, 1)
    else (PH_ERROR_CONVERGENCE_MAX_ITERATIONS, step cur, 1)
  | fuel + 1, cur =>
    if vleConverged eps cur (step cur) = true then (PH_OK, step cur, 1)
    else ((vleLoop step eps fuel (step cur)).1,
          (vleLoop step eps fuel (step cur)).2.1,
          (vleLoop step eps fuel (step cur)).2.2 + 1)

/-- The iterates generated by the VLE run, each paired with its residual. -/
def vleTrace (step : VLEIter → VLEIter) (eps : ℚ) : Nat → VLEIter → List (VLEIter × ℚ)
  | 0, cur => [(step cur, vleResidual cur (step cur))]
  | fuel + 1, cur =>
    if vleConverged eps cur (step cur) = true then [(step cur, vleResidual cur (step cur))]
    else (step cur, vleResidual cur (step cur)) :: vleTrace step eps fuel (step cur)

/-- Fold selecting the iterate with the smallest residual. -/
def pickMin : VLEIter × ℚ → List (VLEIter × ℚ) → VLEIter × ℚ
  | p, [] => p
  | p, q :: qs => pickMin (if q.2 < p.2 then q else p) qs

/-- Iterate with the smallest residual in a trace (a zero iterate on the
empty list, which never arises for vleTrace). -/
def vleBestOf : List (VLEIter × ℚ) → VLEIter
  | [] => ⟨fun _ => 0, 0, fun _ => 0, fun _ => 0⟩
  | p :: ps => (pickMin p ps).1

/-- Modelled from the spec: ph_vle_isothermal_flash (prototype in ph_vle.h
line 92; ph_vle.c is missing).  Spec section 4.5 step 6: cap at
MAX_ITER_VLE = 100 iterations and on overflow return
ConvergenceMaxIterations together with the best iterate seen (the one with
the smallest residual). -/
def ph_vle_isothermal_flash (step : VLEIter → VLEIter) (eps : ℚ) (s0 : VLEIter) :
    Int × VLEIter × Nat :=
  if (vleLoop step eps (MAX_ITER_VLE - 1) s0).1 = PH_OK then
    vleLoop step eps (MAX_ITER_VLE - 1) s0
  else (PH_ERROR_CONVERGENCE_MAX_ITERATIONS,
        vleBestOf (vleTrace step eps (MAX_ITER_VLE - 1) s0),
        (vleLoop step eps (MAX_ITER_VLE - 1) s0).2.2)

/-- Modelled from the spec: the fuelled P-H outer temperature iteration of
spec section 4.6 with the inner evaluation abstracted as `step` and the
enthalpy residual as `res`.  Converge when |r| is within the active
tolerance tau; on exhausting the budget return ConvergenceTolerance when
|r| < 5*tau and ConvergenceMaxIterations otherwise.  The returned Nat
counts the step applications performed. -/
def outerLoop {α : Type} (step : α → α) (res : α → ℚ) (tau : ℚ) : Nat → α → Int × α × Nat
  | 0, s =>
    if |res s| ≤ tau then (PH_OK, s, 0)
    else if |res s| < 5 * tau then (PH_ERROR_CONVERGENCE_TOLERANCE, s, 0)
    else (PH_ERROR_CONVERGENCE_MAX_ITERATIONS, s, 0)
  | fuel + 1, s =>
    if |res s| ≤ tau then (PH_OK, s, 0)
    else ((outerLoop step res tau fuel (step s)).1,
          (outerLoop step res tau fuel (step s)).2.1,
          (outerLoop step res tau fuel (step s)).2.2 + 1)

/-- Modelled from the spec: ph_flash_temperature_iteration (prototype in
ph_flash.h line 86; ph_flash.c is missing): the outer loop run with the
MAX_ITER_OUTER = 50 iteration budget of ph_defs.h. -/
def ph_flash_temperature_iteration {α : Type} (step : α → α) (res : α → ℚ)
    (tau : ℚ) (s0 : α) : Int × α × Nat :=
  outerLoop step res tau MAX_ITER_OUTER s0

/-- Modelled from the spec: ph_adaptive_damping (prototype in ph_utils.h
line 99; ph_utils.c is missing).  Spec section 4.5 step 5: the damping
factor starts at the configured value (capped at 0.9), grows geometrically
up to 0.9 while the residual decreases, and halves when it increases.  The
history list is newest first; the C iteration/history_size arguments are
subsumed by the list length. -/
def ph_adaptive_damping (d0 : ℚ) : List ℚ → ℚ
  | [] => min d0 (9 / 10)
  | [_] => min d0 (9 / 10)
  | eNew :: eOld :: rest =>
    if eNew < eOld then min (ph_adaptive_damping d0 (eOld :: rest) * (3 / 2)) (9 / 10)
    else ph_adaptive_damping d0 (eOld :: rest) / 2

/-- Modelled from the spec: ph_coordinated_damping (prototype in ph_utils.h
line 110; ph_utils.c is missing).  Spec section 4.5 step 5: the adaptive
damping factor is halved once more for each consecutive Anderson failure. -/
def ph_coordinated_damping (d0 : ℚ) (hist : List ℚ) (failures : Nat) : ℚ :=
  ph_adaptive_damping d0 hist / 2 ^ failures

/-- C10: In the PHErrorCode status encoding of ph_error.h, PH_OK equals 0 and
every other enumerated status value is strictly negative, so a status denotes
success exactly when it is nonnegative; moreover each backward-compatibility
alias is numerically identical to its target code, so aliased statuses are
indistinguishable in a returned result. -/
theorem ph_error_code_encoding :
    PH_OK = 0
    ∧ (∀ c ∈ phErrorCodeValues, c ≠ PH_OK → c < 0)
    ∧ (∀ c ∈ phErrorCodeValues, 0 ≤ c ↔ c = PH_OK)
    ∧ PH_ERROR_CONVERGENCE = PH_ERROR_CONVERGENCE_MAX_ITERATIONS
    ∧ PH_ERROR_INPUT_VALIDATION = PH_ERROR_INPUT_NULL
    ∧ PH_ERROR_NUMERICAL = PH_ERROR_NUMERICAL_INVALID_RESULT
    ∧ PH_ERROR_UNSTABLE = PH_ERROR_PHYSICAL_UNSTABLE_SOLUTION
    ∧ PH_ERROR_SOLUTION_VALIDATION = PH_ERROR_PHYSICAL_INVALID_PHASE
    ∧ PH_ERROR_CALCULATION = PH_ERROR_NUMERICAL_INVALID_RESULT := by
  refine ⟨rfl, ?_, ?_, rfl, rfl, rfl, rfl, rfl, rfl⟩ <;> decide

/-- Helper: the 5-fold boolean conjunction holds exactly when the predicate
holds at every component index. -/
theorem all5_eq_true_iff (p : Fin 5 → Bool) : all5 p = true ↔ ∀ i, p i = true := by
  constructor
  · intro h i
    simp only [all5, Bool.and_eq_true] at h
    fin_cases i <;> tauto
  · intro h
    simp [all5, h 0, h 1, h 2, h 3, h 4]

/-- Helper: the input validator only ever returns PH_OK or one of the three
input-validation codes it is modelled to emit. -/
theorem ph_flash_validate_inputs_cases (z : Fin 5 → ℚ) (P : ℚ) (H_spec : Option ℚ) :
    ph_flash_validate_inputs z P H_spec = PH_OK ∨
    ph_flash_validate_inputs z P H_spec = PH_ERROR_INPUT_INVALID_COMPOSITION ∨
    ph_flash_validate_inputs z P H_spec = PH_ERROR_INPUT_INVALID_PRESSURE ∨
    ph_flash_validate_inputs z P H_spec = PH_ERROR_INPUT_INVALID_ENTHALPY := by
  unfold ph_flash_validate_inputs
  split_ifs <;> simp

/-- C5: the input validator accepts (z, P, H_spec) if and only if the
components of z are nonnegative and sum to 1 within 1e-6, P is strictly
positive, and H_spec is finite; on any violation it returns an
input-validation error code and the flash pipeline produces no result
(only an error record carrying that code). -/
theorem ph_flash_validate_inputs_spec (z : Fin 5 → ℚ) (P : ℚ) (H_spec : Option ℚ) :
    (ph_flash_validate_inputs z P H_spec = PH_OK ↔
      ((∀ i, 0 ≤ z i) ∧ |ph_sum5 z - 1| ≤ TOL_Z_INPUT ∧ 0 < P ∧ H_spec.isSome = true))
    ∧ (ph_flash_validate_inputs z P H_spec ≠ PH_OK →
        (ph_flash_validate_inputs z P H_spec = PH_ERROR_INPUT_INVALID_COMPOSITION ∨
         ph_flash_validate_inputs z P H_spec = PH_ERROR_INPUT_INVALID_PRESSURE ∨
         ph_flash_validate_inputs z P H_spec = PH_ERROR_INPUT_INVALID_ENTHALPY)
        ∧ ∀ core options, ph_flash_calculate core z P H_spec options =
            mkErrorState (ph_flash_validate_inputs z P H_spec)) := by
  have hall : all5 (fun i => decide (0 ≤ z i)) = true ↔ ∀ i, 0 ≤ z i := by
    rw [all5_eq_true_iff]
    simp
  constructor
  · unfold ph_flash_validate_inputs
    split_ifs with h1 h2 h3 h4
    · exact iff_of_true rfl ⟨hall.mp h1, h2, h3, h4⟩
    · exact iff_of_false (by norm_num [PH_ERROR_INPUT_INVALID_ENTHALPY, PH_OK])
        (fun hc => h4 hc.2.2.2)
    · exact iff_of_false (by norm_num [PH_ERROR_INPUT_INVALID_PRESSURE, PH_OK])
        (fun hc => h3 hc.2.2.1)
    · exact iff_of_false (by norm_num [PH_ERROR_INPUT_INVALID_COMPOSITION, PH_OK])
        (fun hc => h2 hc.2.1)
    · exact iff_of_false (by norm_num [PH_ERROR_INPUT_INVALID_COMPOSITION, PH_OK])
        (fun hc => h1 (hall.mpr hc.1))
  · intro hne
    refine ⟨?_, ?_⟩
    · rcases ph_flash_validate_inputs_cases z P H_spec with h | h | h | h
      · exact absurd h hne
      · exact Or.inl h
      · exact Or.inr (Or.inl h)
      · exact Or.inr (Or.inr h)
    · intro core options
      unfold ph_flash_calculate
      rw [if_neg hne]

/-- C5 witness: the validator accepts the equimolar feed at atmospheric
pressure with a finite enthalpy target. -/
theorem ph_flash_validate_inputs_spec_witness :
    ph_flash_validate_inputs zFeed0 101325 (some 0) = PH_OK :=
  (ph_flash_validate_inputs_spec zFeed0 101325 (some 0)).1.mpr
    ⟨by decide, by decide, by decide, by decide⟩

/-- C9: on any input that passes validation, if the options request an
equation of state other than Peng-Robinson (eos_type different from 0, e.g.
the declared PR-CPA switch eos_type = 1), the flash rejects the request with
the NotImplemented error code instead of computing with the plain PR model. -/
theorem ph_flash_rejects_non_pr_eos
    (core : (Fin 5 → ℚ) → ℚ → ℚ → FlashOptions → StateProperties)
    (z : Fin 5 → ℚ) (P : ℚ) (H_spec : Option ℚ) (opts : FlashOptions)
    (hv : ph_flash_validate_inputs z P H_spec = PH_OK)
    (he : opts.eos_type ≠ 0) :
    ph_flash_calculate core z P H_spec opts = mkErrorState PH_ERROR_NOT_IMPLEMENTED := by
  unfold ph_flash_calculate
  rw [if_pos hv, if_neg he]

/-- C9 witness: with eos_type = 1 and otherwise valid inputs the flash
returns the NotImplemented error record. -/
theorem ph_flash_rejects_non_pr_eos_witness :
    ph_flash_validate_inputs zFeed0 101325 (some 0) = PH_OK ∧
    opts1.eos_type ≠ 0 ∧
    ph_flash_calculate core0 zFeed0 101325 (some 0) opts1 =
      mkErrorState PH_ERROR_NOT_IMPLEMENTED :=
  ⟨by decide, by decide,
   ph_flash_rejects_non_pr_eos core0 zFeed0 101325 (some 0) opts1 (by decide) (by decide)⟩

/-- C8 counterexample: the claim fails as stated, because uniform scaling of
the feed by s = 2 makes the feed sum 2, which the input validator rejects
(spec section 6 requires the sum within 1e-6 of 1), so the scaled run
returns an input-validation error record while the original run returns an
accepted result: the statuses differ. -/
theorem ph_flash_scaling_counterexample :
    ph_flash_validate_inputs zFeed0 101325 (some 0) = PH_OK ∧
    isAcceptedStatus (ph_flash_calculate core0 zFeed0 101325 (some 0) opts0).status = true ∧
    (0 : ℚ) < 2 ∧
    (ph_flash_calculate core0 (fun i => 2 * zFeed0 i) 101325 (some 0) opts0).status ≠
      (ph_flash_calculate core0 zFeed0 101325 (some 0) opts0).status := by
  refine ⟨by decide, by decide, by decide, by decide⟩

/-- C8 (amended): uniform scaling of the feed leaves the flash result
unchanged provided the scaled feed also passes input validation (the feed
enters the solver only through its normalisation); for scale factors whose
scaled sum leaves the 1e-6 window the run is instead rejected by the
validator. -/
theorem ph_flash_scaling_normalized
    (core : (Fin 5 → ℚ) → ℚ → ℚ → FlashOptions → StateProperties)
    (z : Fin 5 → ℚ) (P : ℚ) (H_spec : Option ℚ) (opts : FlashOptions) (s : ℚ)
    (hs : 0 < s)
    (h1 : ph_flash_validate_inputs z P H_spec = PH_OK)
    (h2 : ph_flash_validate_inputs (fun i => s * z i) P H_spec = PH_OK) :
    ph_flash_calculate core (fun i => s * z i) P H_spec opts =
      ph_flash_calculate core z P H_spec opts := by
  have hnorm : ph_vle_normalize_composition (fun i => s * z i) =
      ph_vle_normalize_composition z := by
    funext i
    have hsum : ph_sum5 (fun j => s * z j) = s * ph_sum5 z := by
      simp only [ph_sum5]
      ring
    simp only [ph_vle_normalize_composition, hsum]
    exact mul_div_mul_left (z i) (ph_sum5 z) hs.ne'
  unfold ph_flash_calculate
  rw [if_pos h1, if_pos h2, hnorm]

/-- C8 witness: a scale factor of 1 + 1e-7 keeps the scaled equimolar feed
inside the validation window, and the flash result is unchanged. -/
theorem ph_flash_scaling_normalized_witness :
    (0 : ℚ) < 1 + 1 / 10 ^ 7 ∧
    ph_flash_validate_inputs zFeed0 101325 (some 0) = PH_OK ∧
    ph_flash_validate_inputs (fun i => (1 + 1 / 10 ^ 7) * zFeed0 i) 101325 (some 0) = PH_OK ∧
    ph_flash_calculate core0 (fun i => (1 + 1 / 10 ^ 7) * zFeed0 i) 101325 (some 0) opts0 =
      ph_flash_calculate core0 zFeed0 101325 (some 0) opts0 :=
  ⟨by decide, by decide, by decide,
   ph_flash_scaling_normalized core0 zFeed0 101325 (some 0) opts0 (1 + 1 / 10 ^ 7)
     (by decide) (by decide) (by decide)⟩

/-- C1: every result the flash pipeline returns with an accepted status
(PH_OK or one of the warning-level codes) satisfies the mole-balance
invariants: the liquid and vapour compositions each sum to 1 within 1e-8,
each feed component satisfies z_i = beta*y_i + (1-beta)*x_i within 1e-8,
and beta lies in [0, 1]. -/
theorem ph_flash_accepted_result_mole_balance
    (core : (Fin 5 → ℚ) → ℚ → ℚ → FlashOptions → StateProperties)
    (z : Fin 5 → ℚ) (P : ℚ) (H_spec : Option ℚ) (opts : FlashOptions)
    (h : isAcceptedStatus (ph_flash_calculate core z P H_spec opts).status = true) :
    |ph_sum5 (ph_flash_calculate core z P H_spec opts).x - 1| ≤ TOL_COMP_SUM ∧
    |ph_sum5 (ph_flash_calculate core z P H_spec opts).y - 1| ≤ TOL_COMP_SUM ∧
    (∀ i, |(ph_flash_calculate core z P H_spec opts).z i -
        ((ph_flash_calculate core z P H_spec opts).beta *
            (ph_flash_calculate core z P H_spec opts).y i +
          (1 - (ph_flash_calculate core z P H_spec opts).beta) *
            (ph_flash_calculate core z P H_spec opts).x i)| ≤ TOL_COMP_SUM) ∧
    0 ≤ (ph_flash_calculate core z P H_spec opts).beta ∧
    (ph_flash_calculate core z P H_spec opts).beta ≤ 1 := by
  have hsol : ∀ s : StateProperties,
      ph_flash_validate_solution s = PH_OK ↔ moleBalanceOK s = true := by
    intro s
    unfold ph_flash_validate_solution
    split_ifs with hm
    · exact iff_of_true rfl hm
    · exact iff_of_false
        (by norm_num [PH_ERROR_SOLUTION_VALIDATION, PH_ERROR_PHYSICAL_INVALID_PHASE, PH_OK]) hm
  have key : moleBalanceOK (ph_flash_calculate core z P H_spec opts) = true := by
    by_cases hv : ph_flash_validate_inputs z P H_spec = PH_OK
    · by_cases he : opts.eos_type = 0
      · by_cases hs :
          moleBalanceOK (core (ph_vle_normalize_composition z) P (H_spec.getD 0) opts) = true
        · unfold ph_flash_calculate
          rw [if_pos hv, if_pos he, if_pos ((hsol _).mpr hs)]
          exact hs
        · exfalso
          unfold ph_flash_calculate at h
          rw [if_pos hv, if_pos he, if_neg (fun hc => hs ((hsol _).mp hc))] at h
          revert h
          decide
      · exfalso
        unfold ph_flash_calculate at h
        rw [if_pos hv, if_neg he] at h
        revert h
        decide
    · exfalso
      unfold ph_flash_calculate at h
      rw [if_neg hv] at h
      rcases ph_flash_validate_inputs_cases z P H_spec with hc | hc | hc | hc
      · exact hv hc
      all_goals
        rw [hc] at h
        revert h
        decide
  simp only [moleBalanceOK, Bool.and_eq_true, decide_eq_true_eq, all5_eq_true_iff] at key
  obtain ⟨⟨⟨⟨k1, k2⟩, k3⟩, k4⟩, k5⟩ := key
  exact ⟨k1, k2, fun i => k3 i, k4, k5⟩

/-- C1 witness: the flash returns an accepted state for the equimolar feed
with the concrete converged core, and its mole balance holds. -/
theorem ph_flash_accepted_result_mole_balance_witness :
    isAcceptedStatus (ph_flash_calculate core0 zFeed0 101325 (some 0) opts0).status = true ∧
    (|ph_sum5 (ph_flash_calculate core0 zFeed0 101325 (some 0) opts0).x - 1| ≤ TOL_COMP_SUM ∧
     |ph_sum5 (ph_flash_calculate core0 zFeed0 101325 (some 0) opts0).y - 1| ≤ TOL_COMP_SUM ∧
     (∀ i, |(ph_flash_calculate core0 zFeed0 101325 (some 0) opts0).z i -
         ((ph_flash_calculate core0 zFeed0 101325 (some 0) opts0).beta *
             (ph_flash_calculate core0 zFeed0 101325 (some 0) opts0).y i +
           (1 - (ph_flash_calculate core0 zFeed0 101325 (some 0) opts0).beta) *
             (ph_flash_calculate core0 zFeed0 101325 (some 0) opts0).x i)| ≤ TOL_COMP_SUM) ∧
     0 ≤ (ph_flash_calculate core0 zFeed0 101325 (some 0) opts0).beta ∧
     (ph_flash_calculate core0 zFeed0 101325 (some 0) opts0).beta ≤ 1) :=
  ⟨by decide,
   ph_flash_accepted_result_mole_balance core0 zFeed0 101325 (some 0) opts0 (by decide)⟩

/-- Helper: for a positive starting value the adaptive damping factor stays
within (0, 9/10]. -/
theorem ph_adaptive_damping_bounds (d0 : ℚ) (h : 0 < d0) (hist : List ℚ) :
    0 < ph_adaptive_damping d0 hist ∧ ph_adaptive_damping d0 hist ≤ 9 / 10 := by
  induction hist with
  | nil =>
    exact ⟨lt_min h (by norm_num), min_le_right _ _⟩
  | cons a t ih =>
    cases t with
    | nil =>
      exact ⟨lt_min h (by norm_num), min_le_right _ _⟩
    | cons b r =>
      obtain ⟨ihp, ihb⟩ := ih
      simp only [ph_adaptive_damping]
      split_ifs with hd
      · refine ⟨lt_min (by positivity) (by norm_num), min_le_right _ _⟩
      · exact ⟨by positivity, by linarith⟩

/-- C7: the adaptive VLE damping factor starts at the configured
options.damping value (capped at 0.9), grows geometrically by a factor 3/2
capped at 0.9 while the residual decreases monotonically, halves when the
residual increases, and is halved once more per consecutive Anderson
failure; in particular the coordinated factor never exceeds 0.9 and stays
positive. -/
theorem ph_coordinated_damping_spec (d0 : ℚ) (hist : List ℚ) (failures : Nat)
    (eNew eOld : ℚ) (rest : List ℚ) (hd0 : 0 < d0) :
    (d0 ≤ 9 / 10 → ph_coordinated_damping d0 [] 0 = d0) ∧
    ph_coordinated_damping d0 hist failures ≤ 9 / 10 ∧
    0 < ph_coordinated_damping d0 hist failures ∧
    (eNew < eOld → ph_adaptive_damping d0 (eNew :: eOld :: rest) =
      min (ph_adaptive_damping d0 (eOld :: rest) * (3 / 2)) (9 / 10)) ∧
    (eOld ≤ eNew → ph_adaptive_damping d0 (eNew :: eOld :: rest) =
      ph_adaptive_damping d0 (eOld :: rest) / 2) ∧
    ph_coordinated_damping d0 hist (failures + 1) =
      ph_coordinated_damping d0 hist failures / 2 := by
  obtain ⟨hp, hb⟩ := ph_adaptive_damping_bounds d0 hd0 hist
  have h2 : (1 : ℚ) ≤ 2 ^ failures := one_le_pow₀ (by norm_num)
  refine ⟨?_, ?_, ?_, ?_, ?_, ?_⟩
  · intro hle
    simp [ph_coordinated_damping, ph_adaptive_damping, min_eq_left hle]
  · calc ph_coordinated_damping d0 hist failures
        = ph_adaptive_damping d0 hist / 2 ^ failures := rfl
      _ ≤ ph_adaptive_damping d0 hist := div_le_self hp.le h2
      _ ≤ 9 / 10 := hb
  · have hpow : (0 : ℚ) < 2 ^ failures := by positivity
    exact div_pos hp hpow
  · intro hlt
    simp only [ph_adaptive_damping]
    rw [if_pos hlt]
  · intro hge
    simp only [ph_adaptive_damping]
    rw [if_neg (not_lt.mpr hge)]
  · rw [ph_coordinated_damping, ph_coordinated_damping, pow_succ, div_div]

/-- C7 witness: with the default initial damping 0.5 the coordinated factor
is bounded by 0.9. -/
theorem ph_coordinated_damping_spec_witness :
    (0 : ℚ) < 1 / 2 ∧ ph_coordinated_damping (1 / 2) [] 0 ≤ 9 / 10 :=
  ⟨by norm_num, (ph_coordinated_damping_spec (1 / 2) [] 0 1 2 [] (by norm_num)).2.1⟩

/-- Helper: full behaviour of the fuelled outer loop, by induction on the
iteration budget. -/
theorem outerLoop_spec {α : Type} (step : α → α) (res : α → ℚ) (tau : ℚ) :
    ∀ (fuel : Nat) (s : α),
      (outerLoop step res tau fuel s).2.2 ≤ fuel ∧
      ((outerLoop step res tau fuel s).1 = PH_OK ∨
       (outerLoop step res tau fuel s).1 = PH_ERROR_CONVERGENCE_TOLERANCE ∨
       (outerLoop step res tau fuel s).1 = PH_ERROR_CONVERGENCE_MAX_ITERATIONS) ∧
      ((outerLoop step res tau fuel s).1 = PH_OK →
        |res (outerLoop step res tau fuel s).2.1| ≤ tau) ∧
      ((outerLoop step res tau fuel s).1 = PH_ERROR_CONVERGENCE_TOLERANCE →
        (outerLoop step res tau fuel s).2.2 = fuel ∧
        tau < |res (outerLoop step res tau fuel s).2.1| ∧
        |res (outerLoop step res tau fuel s).2.1| < 5 * tau) ∧
      ((outerLoop step res tau fuel s).1 = PH_ERROR_CONVERGENCE_MAX_ITERATIONS →
        (outerLoop step res tau fuel s).2.2 = fuel ∧
        5 * tau ≤ |res (outerLoop step res tau fuel s).2.1|) := by
  have hOkTol : PH_OK ≠ PH_ERROR_CONVERGENCE_TOLERANCE := by decide
  have hOkMax : PH_OK ≠ PH_ERROR_CONVERGENCE_MAX_ITERATIONS := by decide
  have hTolOk : PH_ERROR_CONVERGENCE_TOLERANCE ≠ PH_OK := by decide
  have hTolMax : PH_ERROR_CONVERGENCE_TOLERANCE ≠ PH_ERROR_CONVERGENCE_MAX_ITERATIONS := by
    decide
  have hMaxOk : PH_ERROR_CONVERGENCE_MAX_ITERATIONS ≠ PH_OK := by decide
  have hMaxTol : PH_ERROR_CONVERGENCE_MAX_ITERATIONS ≠ PH_ERROR_CONVERGENCE_TOLERANCE := by
    decide
  intro fuel
  induction fuel with
  | zero =>
    intro s
    simp only [outerLoop]
    split_ifs with h1 h2
    · exact ⟨le_refl 0, Or.inl rfl, fun _ => h1,
        fun habs => absurd habs hOkTol, fun habs => absurd habs hOkMax⟩
    · exact ⟨le_refl 0, Or.inr (Or.inl rfl),
        fun habs => absurd habs hTolOk,
        fun _ => ⟨rfl, lt_of_not_le h1, h2⟩,
        fun habs => absurd habs hTolMax⟩
    · exact ⟨le_refl 0, Or.inr (Or.inr rfl),
        fun habs => absurd habs hMaxOk,
        fun habs => absurd habs hMaxTol,
        fun _ => ⟨rfl, le_of_not_lt h2⟩⟩
  | succ fuel ih =>
    intro s
    simp only [outerLoop]
    split_ifs with h1
    · exact ⟨Nat.zero_le _, Or.inl rfl, fun _ => h1,
        fun habs => absurd habs hOkTol, fun habs => absurd habs hOkMax⟩
    · obtain ⟨ic, is, iok, itol, imax⟩ := ih (step s)
      refine ⟨Nat.succ_le_succ ic, is, iok, ?_, ?_⟩
      · intro ht
        obtain ⟨hc, hlo, hhi⟩ := itol ht
        refine ⟨?_, hlo, hhi⟩
        show (outerLoop step res tau fuel (step s)).2.2 + 1 = fuel + 1
        omega
      · intro hm
        obtain ⟨hc, hge⟩ := imax hm
        refine ⟨?_, hge⟩
        show (outerLoop step res tau fuel (step s)).2.2 + 1 = fuel + 1
        omega

/-- C6: the P-H outer temperature loop performs at most MAX_ITER_OUTER = 50
iterations; it succeeds only with the residual within the active tolerance
tau; when the cap is reached with |r| < 5*tau it returns the warning-level
status ConvergenceTolerance, and otherwise the error status
ConvergenceMaxIterations - and those are the only possible outcomes. -/
theorem ph_flash_temperature_iteration_cap {α : Type} (step : α → α)
    (res : α → ℚ) (tau : ℚ) (s0 : α) :
    (ph_flash_temperature_iteration step res tau s0).2.2 ≤ MAX_ITER_OUTER ∧
    ((ph_flash_temperature_iteration step res tau s0).1 = PH_OK ∨
     (ph_flash_temperature_iteration step res tau s0).1 = PH_ERROR_CONVERGENCE_TOLERANCE ∨
     (ph_flash_temperature_iteration step res tau s0).1 = PH_ERROR_CONVERGENCE_MAX_ITERATIONS) ∧
    ((ph_flash_temperature_iteration step res tau s0).1 = PH_OK →
      |res (ph_flash_temperature_iteration step res tau s0).2.1| ≤ tau) ∧
    ((ph_flash_temperature_iteration step res tau s0).1 = PH_ERROR_CONVERGENCE_TOLERANCE →
      (ph_flash_temperature_iteration step res tau s0).2.2 = MAX_ITER_OUTER ∧
      tau < |res (ph_flash_temperature_iteration step res tau s0).2.1| ∧
      |res (ph_flash_temperature_iteration step res tau s0).2.1| < 5 * tau) ∧
    ((ph_flash_temperature_iteration step res tau s0).1 = PH_ERROR_CONVERGENCE_MAX_ITERATIONS →
      (ph_flash_temperature_iteration step res tau s0).2.2 = MAX_ITER_OUTER ∧
      5 * tau ≤ |res (ph_flash_temperature_iteration step res tau s0).2.1|) :=
  outerLoop_spec step res tau MAX_ITER_OUTER s0

/-- C6 witness: a run that is already converged performs no iterations and
stays within the 50-iteration cap. -/
theorem ph_flash_temperature_iteration_cap_witness :
    (ph_flash_temperature_iteration (fun x : ℚ => x) (fun _ => 0) 1 0).2.2 ≤ MAX_ITER_OUTER :=
  (ph_flash_temperature_iteration_cap (fun x : ℚ => x) (fun _ => 0) 1 0).1

/-- Helper: ph_clip lands in the target interval whenever it is nonempty. -/
theorem ph_clip_mem (v lo hi : ℚ) (h : lo ≤ hi) :
    lo ≤ ph_clip v lo hi ∧ ph_clip v lo hi ≤ hi := by
  unfold ph_clip
  split_ifs with h1 h2
  · exact ⟨le_refl lo, h⟩
  · exact ⟨h, le_refl hi⟩
  · exact ⟨le_of_not_lt h1, le_of_not_lt h2⟩

/-- Helper: every Rachford-Rice update advances the iteration counter by
exactly one. -/
theorem rrNext_iters (z K : Fin 5 → ℚ) (s : RRState) :
    (rrNext z K s).iters = s.iters + 1 := by
  simp only [rrNext]
  split_ifs <;> rfl

/-- Helper: the Rachford-Rice stopping test, spelled out. -/
theorem rrConverged_iff (z K : Fin 5 → ℚ) (s : RRState) :
    rrConverged z K s = true ↔
      (|rrG z K s.beta| < TOL_RR ∨ s.hi - s.lo < TOL_RR_BRACKET) := by
  simp [rrConverged]

/-- Helper: full behaviour of the fuelled Rachford-Rice loop, by induction
on the iteration budget. -/
theorem rrLoop_spec (z K : Fin 5 → ℚ) :
    ∀ (fuel : Nat) (s : RRState),
      (rrLoop z K fuel s).2.iters ≤ s.iters + fuel ∧
      ((rrLoop z K fuel s).1 = PH_OK ∨
       (rrLoop z K fuel s).1 = PH_ERROR_ALGORITHM_RACHFORD_RICE) ∧
      ((rrLoop z K fuel s).1 = PH_OK → rrConverged z K (rrLoop z K fuel s).2 = true) ∧
      ((rrLoop z K fuel s).1 = PH_ERROR_ALGORITHM_RACHFORD_RICE →
        (rrLoop z K fuel s).2.iters = s.iters + fuel ∧
        rrConverged z K (rrLoop z K fuel s).2 = false) := by
  have hOkRR : PH_OK ≠ PH_ERROR_ALGORITHM_RACHFORD_RICE := by decide
  have hRROk : PH_ERROR_ALGORITHM_RACHFORD_RICE ≠ PH_OK := by decide
  intro fuel
  induction fuel with
  | zero =>
    intro s
    simp only [rrLoop]
    split_ifs with h1
    · exact ⟨Nat.le_refl _, Or.inl rfl, fun _ => h1, fun habs => absurd habs hRROk.symm⟩
    · exact ⟨Nat.le_refl _, Or.inr rfl, fun habs => absurd habs hRROk,
        fun _ => ⟨rfl, Bool.eq_false_iff.mpr h1⟩⟩
  | succ fuel ih =>
    intro s
    simp only [rrLoop]
    split_ifs with h1
    · refine ⟨?_, Or.inl rfl, fun _ => h1, fun habs => absurd habs hOkRR⟩
      show s.iters ≤ s.iters + (fuel + 1)
      omega
    · obtain ⟨ic, is, iok, irr⟩ := ih (rrNext z K s)
      have hit : (rrNext z K s).iters = s.iters + 1 := rrNext_iters z K s
      refine ⟨?_, is, iok, ?_⟩
      · omega
      · intro hm
        obtain ⟨h1', h2'⟩ := irr hm
        exact ⟨by omega, h2'⟩

/-- C4: the Rachford-Rice solver declares convergence exactly when
|g(beta)| < 1e-10 or the bracket width is below 1e-12, runs at most
MAX_ITER_RR = 30 iterations, on failure returns the last beta together with
the RachfordRice algorithm status (after exactly 30 iterations, with the
stopping test still false), and the beta it hands back to the VLE loop is
always the internal beta clipped into [0, 1]. -/
theorem ph_vle_solve_rachford_rice_spec (z K : Fin 5 → ℚ) :
    (0 ≤ (ph_vle_solve_rachford_rice z K).beta ∧
     (ph_vle_solve_rachford_rice z K).beta ≤ 1) ∧
    (ph_vle_solve_rachford_rice z K).beta =
      ph_clip (ph_vle_solve_rachford_rice z K).final.beta 0 1 ∧
    (ph_vle_solve_rachford_rice z K).final.iters ≤ MAX_ITER_RR ∧
    ((ph_vle_solve_rachford_rice z K).status = PH_OK ∨
     (ph_vle_solve_rachford_rice z K).status = PH_ERROR_ALGORITHM_RACHFORD_RICE) ∧
    ((ph_vle_solve_rachford_rice z K).status = PH_OK →
      |rrG z K (ph_vle_solve_rachford_rice z K).final.beta| < TOL_RR ∨
      (ph_vle_solve_rachford_rice z K).final.hi -
        (ph_vle_solve_rachford_rice z K).final.lo < TOL_RR_BRACKET) ∧
    ((ph_vle_solve_rachford_rice z K).status = PH_ERROR_ALGORITHM_RACHFORD_RICE →
      (ph_vle_solve_rachford_rice z K).final.iters = MAX_ITER_RR ∧
      ¬(|rrG z K (ph_vle_solve_rachford_rice z K).final.beta| < TOL_RR ∨
        (ph_vle_solve_rachford_rice z K).final.hi -
          (ph_vle_solve_rachford_rice z K).final.lo < TOL_RR_BRACKET)) := by
  set lo := if 1 < max5 K then 1 / (1 - max5 K) else 0 with hlo
  set hi := if min5 K < 1 then 1 / (1 - min5 K) else 1 with hhi
  set s0 : RRState := ⟨(lo + hi) / 2, lo, hi, 0⟩ with hs0
  have he : ph_vle_solve_rachford_rice z K =
      ⟨(rrLoop z K MAX_ITER_RR s0).1,
       ph_clip (rrLoop z K MAX_ITER_RR s0).2.beta 0 1,
       (rrLoop z K MAX_ITER_RR s0).2⟩ := rfl
  obtain ⟨ic, is, iok, irr⟩ := rrLoop_spec z K MAX_ITER_RR s0
  have h0 : s0.iters = 0 := rfl
  rw [h0] at ic
  rw [he]
  refine ⟨ph_clip_mem _ 0 1 (by norm_num), rfl, ?_, is, ?_, ?_⟩
  · show (rrLoop z K MAX_ITER_RR s0).2.iters ≤ MAX_ITER_RR
    omega
  · intro hok
    exact (rrConverged_iff z K _).mp (iok hok)
  · intro hm
    obtain ⟨h1', h2'⟩ := irr hm
    refine ⟨?_, ?_⟩
    · show (rrLoop z K MAX_ITER_RR s0).2.iters = MAX_ITER_RR
      omega
    · rw [← rrConverged_iff z K ((rrLoop z K MAX_ITER_RR s0).2)]
      simp [h2']

/-- C4 witness: a concrete feed and K vector for which the returned beta is
inside [0, 1]. -/
theorem ph_vle_solve_rachford_rice_spec_witness :
    0 ≤ (ph_vle_solve_rachford_rice (fun _ => 1 / 5) (fun _ => 2)).beta ∧
    (ph_vle_solve_rachford_rice (fun _ => 1 / 5) (fun _ => 2)).beta ≤ 1 :=
  (ph_vle_solve_rachford_rice_spec (fun _ => 1 / 5) (fun _ => 2)).1

/-- Helper: the minimum-residual fold returns its seed or a list element. -/
theorem pickMin_mem : ∀ (l : List (VLEIter × ℚ)) (p : VLEIter × ℚ),
    pickMin p l = p ∨ pickMin p l ∈ l := by
  intro l
  induction l with
  | nil =>
    intro p
    exact Or.inl rfl
  | cons q qs ih =>
    intro p
    simp only [pickMin]
    rcases ih (if q.2 < p.2 then q else p) with h | h
    · rw [h]
      split_ifs with hq
      · exact Or.inr (List.mem_cons_self q qs)
      · exact Or.inl rfl
    · exact Or.inr (List.mem_cons_of_mem q h)

/-- Helper: the minimum-residual fold is bounded by its seed and by every
list element. -/
theorem pickMin_le : ∀ (l : List (VLEIter × ℚ)) (p : VLEIter × ℚ),
    (pickMin p l).2 ≤ p.2 ∧ ∀ q ∈ l, (pickMin p l).2 ≤ q.2 := by
  intro l
  induction l with
  | nil =>
    intro p
    exact ⟨le_refl _, fun q hq => absurd hq (List.not_mem_nil q)⟩
  | cons q qs ih =>
    intro p
    simp only [pickMin]
    obtain ⟨ih1, ih2⟩ := ih (if q.2 < p.2 then q else p)
    constructor
    · refine le_trans ih1 ?_
      split_ifs with hq
      · exact le_of_lt hq
      · exact le_refl _
    · intro r hr
      rcases List.mem_cons.mp hr with rfl | hr'
      · refine le_trans ih1 ?_
        split_ifs with hq
        · exact le_refl _
        · exact le_of_not_lt hq
      · exact ih2 r hr'

/-- Helper: the chosen best iterate of a nonempty trace is a member of the
trace and has the smallest residual in it. -/
theorem vleBestOf_spec (p : VLEIter × ℚ) (ps : List (VLEIter × ℚ)) :
    pickMin p ps ∈ p :: ps ∧ vleBestOf (p :: ps) = (pickMin p ps).1 ∧
    ∀ q ∈ p :: ps, (pickMin p ps).2 ≤ q.2 := by
  refine ⟨?_, rfl, ?_⟩
  · rcases pickMin_mem ps p with h | h
    · rw [h]
      exact List.mem_cons_self p ps
    · exact List.mem_cons_of_mem p h
  · intro q hq
    obtain ⟨h1, h2⟩ := pickMin_le ps p
    rcases List.mem_cons.mp hq with rfl | hq'
    · exact h1
    · exact h2 q hq'

/-- Helper: the VLE trace is never empty. -/
theorem vleTrace_ne_nil (step : VLEIter → VLEIter) (eps : ℚ) (fuel : Nat) (cur : VLEIter) :
    vleTrace step eps fuel cur ≠ [] := by
  cases fuel with
  | zero => simp [vleTrace]
  | succ f =>
    simp only [vleTrace]
    split_ifs <;> simp

/-- Helper: full behaviour of the fuelled VLE loop, by induction on the
iteration budget. -/
theorem vleLoop_spec (step : VLEIter → VLEIter) (eps : ℚ) :
    ∀ (fuel : Nat) (cur : VLEIter),
      (vleLoop step eps fuel cur).2.2 ≤ fuel + 1 ∧
      ((vleLoop step eps fuel cur).1 = PH_OK ∨
       (vleLoop step eps fuel cur).1 = PH_ERROR_CONVERGENCE_MAX_ITERATIONS) ∧
      ((vleLoop step eps fuel cur).1 = PH_OK →
        ∃ prev, (vleLoop step eps fuel cur).2.1 = step prev ∧
          vleConverged eps prev (step prev) = true) ∧
      ((vleLoop step eps fuel cur).1 = PH_ERROR_CONVERGENCE_MAX_ITERATIONS →
        (vleLoop step eps fuel cur).2.2 = fuel + 1) := by
  have hOkMax : PH_OK ≠ PH_ERROR_CONVERGENCE_MAX_ITERATIONS := by decide
  intro fuel
  induction fuel with
  | zero =>
    intro cur
    simp only [vleLoop]
    split_ifs with h1
    · exact ⟨Nat.le_refl 1, Or.inl rfl, fun _ => ⟨cur, rfl, h1⟩,
        fun habs => absurd habs hOkMax⟩
    · exact ⟨Nat.le_refl 1, Or.inr rfl, fun habs => absurd habs hOkMax.symm,
        fun _ => rfl⟩
  | succ fuel ih =>
    intro cur
    simp only [vleLoop]
    split_ifs with h1
    · exact ⟨Nat.succ_le_succ (Nat.zero_le _), Or.inl rfl, fun _ => ⟨cur, rfl, h1⟩,
        fun habs => absurd habs hOkMax⟩
    · obtain ⟨ic, is, iok, imax⟩ := ih (step cur)
      refine ⟨?_, is, iok, ?_⟩
      · show (vleLoop step eps fuel (step cur)).2.2 + 1 ≤ fuel + 1 + 1
        omega
      · intro hm
        have hc := imax hm
        show (vleLoop step eps fuel (step cur)).2.2 + 1 = fuel + 1 + 1
        omega

/-- C3: the isothermal VLE loop declares convergence exactly by the
vleConverged test (infinity-norm change in ln K below 1e-7, liquid/vapour
composition sums within 1e-8 of each other, beta in [-eps, 1+eps]); it
performs at most MAX_ITER_VLE = 100 iterations, and on reaching the cap
without convergence it returns status ConvergenceMaxIterations together
with the iterate of smallest residual among all iterates seen. -/
theorem ph_vle_isothermal_flash_convergence (step : VLEIter → VLEIter)
    (eps : ℚ) (s0 : VLEIter) :
    (ph_vle_isothermal_flash step eps s0).2.2 ≤ MAX_ITER_VLE ∧
    ((ph_vle_isothermal_flash step eps s0).1 = PH_OK ∨
     (ph_vle_isothermal_flash step eps s0).1 = PH_ERROR_CONVERGENCE_MAX_ITERATIONS) ∧
    ((ph_vle_isothermal_flash step eps s0).1 = PH_OK →
      ∃ prev, (ph_vle_isothermal_flash step eps s0).2.1 = step prev ∧
        vleConverged eps prev (step prev) = true) ∧
    ((ph_vle_isothermal_flash step eps s0).1 = PH_ERROR_CONVERGENCE_MAX_ITERATIONS →
      (ph_vle_isothermal_flash step eps s0).2.2 = MAX_ITER_VLE ∧
      ∃ p ∈ vleTrace step eps (MAX_ITER_VLE - 1) s0,
        (ph_vle_isothermal_flash step eps s0).2.1 = p.1 ∧
        ∀ q ∈ vleTrace step eps (MAX_ITER_VLE - 1) s0, p.2 ≤ q.2) := by
  have hOkMax : PH_OK ≠ PH_ERROR_CONVERGENCE_MAX_ITERATIONS := by decide
  obtain ⟨lc, ls, lok, lmax⟩ := vleLoop_spec step eps (MAX_ITER_VLE - 1) s0
  have hfuel : MAX_ITER_VLE - 1 + 1 = MAX_ITER_VLE := rfl
  unfold ph_vle_isothermal_flash
  split_ifs with hok
  · refine ⟨by omega, Or.inl hok, fun _ => lok hok, ?_⟩
    intro habs
    rw [hok] at habs
    exact absurd habs hOkMax
  · refine ⟨?_, Or.inr rfl, fun habs => absurd habs hOkMax.symm, ?_⟩
    · show (vleLoop step eps (MAX_ITER_VLE - 1) s0).2.2 ≤ MAX_ITER_VLE
      omega
    · intro _
      have hst : (vleLoop step eps (MAX_ITER_VLE - 1) s0).1 =
          PH_ERROR_CONVERGENCE_MAX_ITERATIONS := by
        rcases ls with h | h
        · exact absurd h hok
        · exact h
      have hc := lmax hst
      refine ⟨?_, ?_⟩
      · show (vleLoop step eps (MAX_ITER_VLE - 1) s0).2.2 = MAX_ITER_VLE
        omega
      · rcases hx : vleTrace step eps (MAX_ITER_VLE - 1) s0 with _ | ⟨p, ps⟩
        · exact absurd hx (vleTrace_ne_nil step eps (MAX_ITER_VLE - 1) s0)
        · obtain ⟨hmem, hbest, hmin⟩ := vleBestOf_spec p ps
          exact ⟨pickMin p ps, hmem, hbest, hmin⟩

/-- C3 witness: a run that converges immediately stays within the
100-iteration cap. -/
theorem ph_vle_isothermal_flash_convergence_witness :
    (ph_vle_isothermal_flash (fun s => s) 0
        ⟨fun _ => 0, 1 / 2, zFeed0, zFeed0⟩).2.2 ≤ MAX_ITER_VLE :=
  (ph_vle_isothermal_flash_convergence (fun s => s) 0 ⟨fun _ => 0, 1 / 2, zFeed0, zFeed0⟩).1

/-- Helper: a max-fold over a list stays inside the seeded list. -/
theorem foldlMax_mem : ∀ (xs : List ℚ) (x : ℚ), xs.foldl max x ∈ x :: xs := by
  intro xs
  induction xs with
  | nil =>
    intro x
    exact List.mem_cons_self x []
  | cons a t ih =>
    intro x
    simp only [List.foldl_cons]
    have h := ih (max x a)
    rcases List.mem_cons.mp h with h1 | h1
    · rcases max_choice x a with hc | hc
      · rw [h1, hc]
        exact List.mem_cons_self _ _
      · rw [h1, hc]
        exact List.mem_cons_of_mem _ (List.mem_cons_self _ _)
    · exact List.mem_cons_of_mem _ (List.mem_cons_of_mem _ h1)

/-- Helper: a max-fold over a list bounds the seed and every element. -/
theorem le_foldlMax : ∀ (xs : List ℚ) (x y : ℚ), y ∈ x :: xs → y ≤ xs.foldl max x := by
  intro xs
  induction xs with
  | nil =>
    intro x y hy
    rcases List.mem_cons.mp hy with rfl | hy'
    · exact le_refl y
    · exact absurd hy' (List.not_mem_nil y)
  | cons a t ih =>
    intro x y hy
    simp only [List.foldl_cons]
    rcases List.mem_cons.mp hy with rfl | hy'
    · exact le_trans (le_max_left y a) (ih (max y a) (max y a) (List.mem_cons_self _ _))
    · rcases List.mem_cons.mp hy' with rfl | hy''
      · exact le_trans (le_max_right x y) (ih (max x y) (max x y) (List.mem_cons_self _ _))
      · exact ih (max x a) y (List.mem_cons_of_mem _ hy'')

/-- Helper: a min-fold over a list stays inside the seeded list. -/
theorem foldlMin_mem : ∀ (xs : List ℚ) (x : ℚ), xs.foldl min x ∈ x :: xs := by
  intro xs
  induction xs with
  | nil =>
    intro x
    exact List.mem_cons_self x []
  | cons a t ih =>
    intro x
    simp only [List.foldl_cons]
    have h := ih (min x a)
    rcases List.mem_cons.mp h with h1 | h1
    · rcases min_choice x a with hc | hc
      · rw [h1, hc]
        exact List.mem_cons_self _ _
      · rw [h1, hc]
        exact List.mem_cons_of_mem _ (List.mem_cons_self _ _)
    · exact List.mem_cons_of_mem _ (List.mem_cons_of_mem _ h1)

/-- Helper: a min-fold over a list is below the seed and every element. -/
theorem foldlMin_le : ∀ (xs : List ℚ) (x y : ℚ), y ∈ x :: xs → xs.foldl min x ≤ y := by
  intro xs
  induction xs with
  | nil =>
    intro x y hy
    rcases List.mem_cons.mp hy with rfl | hy'
    · exact le_refl y
    · exact absurd hy' (List.not_mem_nil y)
  | cons a t ih =>
    intro x y hy
    simp only [List.foldl_cons]
    rcases List.mem_cons.mp hy with rfl | hy'
    · exact le_trans (ih (min y a) (min y a) (List.mem_cons_self _ _)) (min_le_left y a)
    · rcases List.mem_cons.mp hy' with rfl | hy''
      · exact le_trans (ih (min x y) (min x y) (List.mem_cons_self _ _)) (min_le_right x y)
      · exact ih (min x a) y (List.mem_cons_of_mem _ hy'')

/-- Helper: the cubic root selector fails exactly when every supplied root
is at most B. -/
theorem cubic_error_iff (B : ℚ) (phase : PhaseType) (roots : List ℚ) :
    ph_eos_solve_cubic_eq B phase roots = Except.error PH_ERROR_NUMERICAL_INVALID_RESULT ↔
      ∀ r ∈ roots, r ≤ B := by
  have hany : (roots.any (fun r => decide (B < r)) = true) ↔ ∃ r ∈ roots, B < r := by
    simp [List.any_eq_true]
  unfold ph_eos_solve_cubic_eq
  split_ifs with hg
  · rw [hany] at hg
    obtain ⟨r0, hm, hr0⟩ := hg
    apply iff_of_false _ (fun hall => absurd (hall r0 hm) (not_le.mpr hr0))
    rcases roots with _ | ⟨a, rest⟩
    · exact absurd hm (List.not_mem_nil r0)
    · rcases rest with _ | ⟨b, t⟩
      · cases phase <;> simp
      · cases phase
        · rcases hf : (a :: b :: t).filter (fun r => decide (B < r)) with _ | ⟨m, ms⟩
          · exfalso
            have hmf : r0 ∈ (a :: b :: t).filter (fun r => decide (B < r)) :=
              List.mem_filter.mpr ⟨hm, decide_eq_true hr0⟩
            rw [hf] at hmf
            exact absurd hmf (List.not_mem_nil r0)
          · simp [hf, qmin]
        · rcases hf : (a :: b :: t).filter (fun r => decide (B ≤ r)) with _ | ⟨m, ms⟩
          · exfalso
            have hmf : r0 ∈ (a :: b :: t).filter (fun r => decide (B ≤ r)) :=
              List.mem_filter.mpr ⟨hm, decide_eq_true hr0.le⟩
            rw [hf] at hmf
            exact absurd hmf (List.not_mem_nil r0)
          · simp [hf, qmax]
        · rcases hf : (a :: b :: t).filter (fun r => decide (B ≤ r)) with _ | ⟨m, ms⟩
          · exfalso
            have hmf : r0 ∈ (a :: b :: t).filter (fun r => decide (B ≤ r)) :=
              List.mem_filter.mpr ⟨hm, decide_eq_true hr0.le⟩
            rw [hf] at hmf
            exact absurd hmf (List.not_mem_nil r0)
          · simp [hf, qmax]
  · rw [hany] at hg
    push_neg at hg
    exact iff_of_true rfl hg

/-- Helper: on a single real root above B the selector returns that root
regardless of phase. -/
theorem cubic_single (B : ℚ) (phase : PhaseType) (r : ℚ) (h : B < r) :
    ph_eos_solve_cubic_eq B phase [r] = Except.ok r := by
  unfold ph_eos_solve_cubic_eq
  rw [if_pos (by simp [h])]
  cases phase <;> rfl

/-- Helper: any root the selector returns is one of the supplied roots,
satisfies the phase-side bound against B, and is extremal among the
qualifying roots. -/
theorem cubic_ok_sound (B : ℚ) (phase : PhaseType) (roots : List ℚ) (Z : ℚ)
    (h : ph_eos_solve_cubic_eq B phase roots = Except.ok Z) :
    Z ∈ roots ∧
    (phase ≠ PhaseType.PHASE_LIQUID → B ≤ Z ∧ ∀ r ∈ roots, B ≤ r → r ≤ Z) ∧
    (phase = PhaseType.PHASE_LIQUID → B < Z ∧ ∀ r ∈ roots, B < r → Z ≤ r) := by
  unfold ph_eos_solve_cubic_eq at h
  by_cases hg : roots.any (fun r => decide (B < r)) = true
  case neg =>
    rw [if_neg hg] at h
    exact absurd h (by simp)
  rw [if_pos hg] at h
  have hany : ∃ r ∈ roots, B < r := by simpa [List.any_eq_true] using hg
  rcases roots with _ | ⟨a, rest⟩
  · obtain ⟨r0, hm, _⟩ := hany
    exact absurd hm (List.not_mem_nil r0)
  rcases rest with _ | ⟨b, t⟩
  · have hZ : a = Z := by
      cases phase <;> simpa using h
    obtain ⟨r0, hm, hr0⟩ := hany
    have hra : r0 = a := by simpa using hm
    subst hra
    subst hZ
    refine ⟨List.mem_cons_self _ _, ?_, ?_⟩
    · intro _
      refine ⟨hr0.le, ?_⟩
      intro r hr _
      have : r = r0 := by simpa using hr
      exact le_of_eq this
    · intro _
      refine ⟨hr0, ?_⟩
      intro r hr _
      have : r = r0 := by simpa using hr
      exact le_of_eq this.symm
  · cases phase
    · rcases hf : (a :: b :: t).filter (fun r => decide (B < r)) with _ | ⟨m, ms⟩
      · rw [hf] at h
        simp [qmin] at h
      · rw [hf] at h
        simp only [qmin] at h
        have hZ : ms.foldl min m = Z := by simpa using h
        have hZf : Z ∈ (a :: b :: t).filter (fun r => decide (B < r)) := by
          rw [hf, ← hZ]
          exact foldlMin_mem ms m
        have hZr := List.mem_filter.mp hZf
        refine ⟨hZr.1, fun hne => absurd rfl hne, fun _ => ?_⟩
        refine ⟨of_decide_eq_true hZr.2, ?_⟩
        intro r hr hBr
        have hrf : r ∈ (a :: b :: t).filter (fun x => decide (B < x)) :=
          List.mem_filter.mpr ⟨hr, decide_eq_true hBr⟩
        rw [hf] at hrf
        rw [← hZ]
        exact foldlMin_le ms m r hrf
    · rcases hf : (a :: b :: t).filter (fun r => decide (B ≤ r)) with _ | ⟨m, ms⟩
      · rw [hf] at h
        simp [qmax] at h
      · rw [hf] at h
        simp only [qmax] at h
        have hZ : ms.foldl max m = Z := by simpa using h
        have hZf : Z ∈ (a :: b :: t).filter (fun r => decide (B ≤ r)) := by
          rw [hf, ← hZ]
          exact foldlMax_mem ms m
        have hZr := List.mem_filter.mp hZf
        refine ⟨hZr.1, fun _ => ?_, fun heq => absurd heq (by decide)⟩
        refine ⟨of_decide_eq_true hZr.2, ?_⟩
        intro r hr hBr
        have hrf : r ∈ (a :: b :: t).filter (fun x => decide (B ≤ x)) :=
          List.mem_filter.mpr ⟨hr, decide_eq_true hBr⟩
        rw [hf] at hrf
        rw [← hZ]
        exact le_foldlMax ms m r hrf
    · rcases hf : (a :: b :: t).filter (fun r => decide (B ≤ r)) with _ | ⟨m, ms⟩
      · rw [hf] at h
        simp [qmax] at h
      · rw [hf] at h
        simp only [qmax] at h
        have hZ : ms.foldl max m = Z := by simpa using h
        have hZf : Z ∈ (a :: b :: t).filter (fun r => decide (B ≤ r)) := by
          rw [hf, ← hZ]
          exact foldlMax_mem ms m
        have hZr := List.mem_filter.mp hZf
        refine ⟨hZr.1, fun _ => ?_, fun heq => absurd heq (by decide)⟩
        refine ⟨of_decide_eq_true hZr.2, ?_⟩
        intro r hr hBr
        have hrf : r ∈ (a :: b :: t).filter (fun x => decide (B ≤ x)) :=
          List.mem_filter.mpr ⟨hr, decide_eq_true hBr⟩
        rw [hf] at hrf
        rw [← hZ]
        exact le_foldlMax ms m r hrf

/-- C2: given the list of real roots of the compressibility cubic for the
coefficients (A, B), the selector ph_eos_solve_cubic_eq fails with
NumericalInvalidResult exactly when no root exceeds B; a single real root
above B is returned as-is regardless of phase; for the vapour phase any
returned factor is the largest root at least B, and for the liquid phase
the smallest root strictly above B. -/
theorem ph_eos_solve_cubic_eq_selection (A B : ℚ) (phase : PhaseType) (roots : List ℚ)
    (hroots : ∀ r : ℚ, r ∈ roots ↔ cubicResidual A B r = 0) :
    (ph_eos_solve_cubic_eq B phase roots = Except.error PH_ERROR_NUMERICAL_INVALID_RESULT ↔
      ¬∃ r : ℚ, cubicResidual A B r = 0 ∧ B < r) ∧
    (∀ r : ℚ, roots = [r] → B < r → ph_eos_solve_cubic_eq B phase roots = Except.ok r) ∧
    (phase = PhaseType.PHASE_VAPOR →
      ∀ Z : ℚ, ph_eos_solve_cubic_eq B phase roots = Except.ok Z →
        cubicResidual A B Z = 0 ∧ B ≤ Z ∧
        ∀ r : ℚ, cubicResidual A B r = 0 → B ≤ r → r ≤ Z) ∧
    (phase = PhaseType.PHASE_LIQUID →
      ∀ Z : ℚ, ph_eos_solve_cubic_eq B phase roots = Except.ok Z →
        cubicResidual A B Z = 0 ∧ B < Z ∧
        ∀ r : ℚ, cubicResidual A B r = 0 → B < r → Z ≤ r) := by
  refine ⟨?_, ?_, ?_, ?_⟩
  · rw [cubic_error_iff]
    constructor
    · rintro hall ⟨r, hpol, hlt⟩
      exact absurd (hall r ((hroots r).mpr hpol)) (not_le.mpr hlt)
    · intro hne r hr
      by_contra hlt
      exact hne ⟨r, (hroots r).mp hr, lt_of_not_le hlt⟩
  · intro r hr hBr
    subst hr
    exact cubic_single B phase r hBr
  · intro hph Z hZ
    obtain ⟨hmem, hvap, _⟩ := cubic_ok_sound B phase roots Z hZ
    obtain ⟨hBZ, hmax⟩ := hvap (by subst hph; decide)
    exact ⟨(hroots Z).mp hmem, hBZ, fun r hpol hBr => hmax r ((hroots r).mpr hpol) hBr⟩
  · intro hph Z hZ
    obtain ⟨hmem, _, hliq⟩ := cubic_ok_sound B phase roots Z hZ
    obtain ⟨hBZ, hmin⟩ := hliq hph
    exact ⟨(hroots Z).mp hmem, hBZ, fun r hpol hBr => hmin r ((hroots r).mpr hpol) hBr⟩

/-- C2 witness: for A = -2, B = 0 the cubic factors as Z (Z - 2) (Z + 1),
with real roots -1, 0, 2, and the selector behaves as specified on them. -/
theorem ph_eos_solve_cubic_eq_selection_witness :
    (∀ r : ℚ, r ∈ ([-1, 0, 2] : List ℚ) ↔ cubicResidual (-2) 0 r = 0) ∧
    (ph_eos_solve_cubic_eq 0 PhaseType.PHASE_VAPOR [-1, 0, 2] =
        Except.error PH_ERROR_NUMERICAL_INVALID_RESULT ↔
      ¬∃ r : ℚ, cubicResidual (-2) 0 r = 0 ∧ 0 < r) := by
  have hroots : ∀ r : ℚ, r ∈ ([-1, 0, 2] : List ℚ) ↔ cubicResidual (-2) 0 r = 0 := by
    intro r
    have hfac : cubicResidual (-2) 0 r = r * (r - 2) * (r + 1) := by
      unfold cubicResidual
      ring
    rw [hfac]
    constructor
    · intro hr
      rcases List.mem_cons.mp hr with rfl | hr'
      · norm_num
      · rcases List.mem_cons.mp hr' with rfl | hr''
        · norm_num
        · rcases List.mem_cons.mp hr'' with rfl | hr3
          · norm_num
          · exact absurd hr3 (List.not_mem_nil r)
    · intro h0
      rcases mul_eq_zero.mp h0 with h1 | h1
      · rcases mul_eq_zero.mp h1 with h2 | h2
        · have hr : r = 0 := h2
          rw [hr]
          norm_num
        · have hr : r = 2 := by linarith
          rw [hr]
          norm_num
      · have hr : r = -1 := by linarith
        rw [hr]
        norm_num
  exact ⟨hroots,
    (ph_eos_solve_cubic_eq_selection (-2) 0 PhaseType.PHASE_VAPOR [-1, 0, 2] hroots).1⟩
